import Mathlib

set_option autoImplicit false

/-!
Verification of the OCR post-processing and field-reconciliation pipeline
of the credit-OCR backend. The Python sources (`src/ocr/postprocess.py`,
`src/llm/field_extractor.py`) are shallowly embedded: dicts become
structures, floats become rationals, `None` becomes `Option.none`, and
code that can raise becomes `Except`-valued.
-/

namespace CreditOcr

/-- A 2-D point of a bounding polygon (page-unit coordinates, floats modelled
as rationals). -/
structure Pt where
  x : ℚ
  y : ℚ
deriving DecidableEq, Inhabited

/-- One entry of the flat token list handled by `postprocess.py`: a Python dict
with keys `type` (`"line"` or `"word"`), `text`, `page`, `bounding_box` and
`confidence`. The `confidence` field is doubly optional: outer `none` models a
dict in which the key is absent altogether (as in hand-written fixtures), while
`some none` models the key being present with value `None` (the shape produced
by `extract_text_lines_with_bbox_and_confidence`). -/
structure OcrLine where
  type : String
  text : String
  page : Nat
  bounding_box : Option (List Pt)
  confidence : Option (Option ℚ)
deriving DecidableEq, Inhabited

/-- Python `line.get("confidence")`: `None` both when the key is absent and when
it holds `None`. -/
def getConf (l : OcrLine) : Option ℚ :=
  match l.confidence with
  | none => none
  | some v => v

/-- Python `line.get("confidence", d)` for a numeric default `d`: the default
applies only when the key is absent; a stored `None` is returned as is. -/
def getConfD (l : OcrLine) (d : ℚ) : Option ℚ :=
  match l.confidence with
  | none => some d
  | some v => v

/-- Python `min(a, b)` where each argument is a float or `None`: comparing
`None` with anything raises `TypeError`, so the result is fallible. -/
def pyMin : Option ℚ → Option ℚ → Except String ℚ
  | some a, some b => .ok (min a b)
  | _, _ => .error "TypeError: '<' not supported between float and NoneType"

/-- Python `sum(p["y"] for p in box) / len(box) if box else 0.0` (a missing or
empty box is falsy). -/
def get_center_y : Option (List Pt) → ℚ
  | some (p :: ps) => ((p :: ps).map Pt.y).sum / ((p :: ps).length : ℚ)
  | _ => 0

/-- Python `sum(p["x"] for p in box) / len(box) if box else 0.0`. -/
def get_center_x : Option (List Pt) → ℚ
  | some (p :: ps) => ((p :: ps).map Pt.x).sum / ((p :: ps).length : ℚ)
  | _ => 0

/-- Python `max(p["y"] for p in box) - min(p["y"] for p in box)`, `0.0` for a
falsy box. -/
def get_box_height : Option (List Pt) → ℚ
  | some (p :: ps) => (ps.map Pt.y).foldl max p.y - (ps.map Pt.y).foldl min p.y
  | _ => 0

/-- `are_horizontally_aligned(box1, box2, threshold)`: false if either box is
falsy, else vertical centers within `height * threshold` where `height` is the
larger box height. -/
def are_horizontally_aligned (box1 box2 : Option (List Pt)) (threshold : ℚ) : Bool :=
  match box1, box2 with
  | some (p :: ps), some (q :: qs) =>
      let y1 := get_center_y (some (p :: ps))
      let y2 := get_center_y (some (q :: qs))
      let height := max (get_box_height (some (p :: ps))) (get_box_height (some (q :: qs)))
      decide (|y1 - y2| ≤ height * threshold)
  | _, _ => false

/-- Comparison underlying `sorted(ocr_lines, key=lambda x: (x["page"],
get_center_y(x["bounding_box"])))`. -/
def sortKeyLE (a b : OcrLine) : Bool :=
  decide (a.page < b.page) ||
    (decide (a.page = b.page) &&
      decide (get_center_y a.bounding_box ≤ get_center_y b.bounding_box))

/-- Insert keeping existing equal-key elements in front: together with
`pySorted` this is a stable sort, as Python's `sorted` is. -/
def insertSorted (x : OcrLine) : List OcrLine → List OcrLine
  | [] => [x]
  | y :: ys => if sortKeyLE x y then x :: y :: ys else y :: insertSorted x ys

/-- Stable sort by `(page, vertical center)`. -/
def pySorted (ls : List OcrLine) : List OcrLine := ls.foldr insertSorted []

/-- A label/value pair as built by `extract_label_value_pairs` (a dict with
keys `label`, `value`, `page`, `confidence`, `bounding_box`, all present). -/
structure Pair where
  label : String
  value : String
  page : Nat
  confidence : Option ℚ
  bounding_box : Option (List Pt)
deriving DecidableEq, Inhabited

/-- Python `s.split(c, 1)` provided `c` occurs in `s`: the part before the
first occurrence and the part after it. -/
def splitAtFirst (c : Char) (s : String) : Option (String × String) :=
  match s.data.findIdx? (· == c) with
  | some k => some (⟨s.data.take k⟩, ⟨s.data.drop (k + 1)⟩)
  | none => none

/-- The test of the colon pass on a line text: after stripping, the text
contains a colon and both halves are non-empty after stripping. -/
def colonSplittable (t : String) : Bool :=
  match splitAtFirst ':' t.trim with
  | some (a, b) => a.trim != "" && b.trim != ""
  | none => false

/-- The colon-pass test applied to an already stripped text, so that
`colonSplittable t = strippedSplittable t.trim` definitionally. -/
def strippedSplittable (t : String) : Bool :=
  match splitAtFirst ':' t with
  | some (a, b) => a.trim != "" && b.trim != ""
  | none => false

/-- The pair the colon pass emits for a line (meaningful when
`colonSplittable` holds). -/
def mkColonPair (page : Nat) (l : OcrLine) : Pair :=
  match splitAtFirst ':' l.text.trim with
  | some (a, b) => ⟨a.trim, b.trim, page, getConf l, l.bounding_box⟩
  | none => ⟨"", "", page, getConf l, l.bounding_box⟩

/-- One iteration of the first (colon) pass of `extract_label_value_pairs`,
acting on the accumulated `(results, used_indices)` state. -/
def colonStep (page : Nat) (lines : List OcrLine) (st : List Pair × List Nat) (i : Nat) :
    List Pair × List Nat :=
  if st.2.contains i then st
  else
    let line := lines.getD i default
    if colonSplittable line.text then (st.1 ++ [mkColonPair page line], st.2 ++ [i])
    else st

/-- The complete colon pass over one page buffer. -/
def colonPass (page : Nat) (lines : List OcrLine) : List Pair × List Nat :=
  (List.range lines.length).foldl (colonStep page lines) ([], [])

/-- One candidate check of the inner search of the geometric pass, carrying the
running `(best_value_line, best_value_x)` state. -/
def bestStep (lines : List OcrLine) (used : List Nat) (line : OcrLine) (cx : ℚ)
    (best : Option (OcrLine × ℚ)) (j : Nat) : Option (OcrLine × ℚ) :=
  if used.contains j then best
  else
    if are_horizontally_aligned line.bounding_box (lines.getD j default).bounding_box (1 / 10) &&
        decide (get_center_x (lines.getD j default).bounding_box > cx) &&
        (match best with
         | none => true
         | some (_, bx) => decide (get_center_x (lines.getD j default).bounding_box < bx)) then
      some (lines.getD j default, get_center_x (lines.getD j default).bounding_box)
    else best

/-- The inner search of the geometric pass: the not-yet-used line that is
horizontally aligned with `line`, lies to the right of it, and has the
smallest horizontal center among such candidates. -/
def bestAligned (lines : List OcrLine) (used : List Nat) (line : OcrLine) (cx : ℚ) :
    Option OcrLine :=
  ((List.range lines.length).foldl (bestStep lines used line cx) none).map Prod.fst

/-- Python `lines.index(b)`: index of the first element equal to `b`. -/
def idxOfFirst (lines : List OcrLine) (b : OcrLine) : Nat :=
  (lines.findIdx? (· == b)).getD 0

/-- The fallback scan of the geometric pass over `range(i+1, min(i+3,
len(lines)))`: the first not-yet-used index whose horizontal center is right of
the split threshold and whose vertical center is within `y_thresh` of `cy`. -/
def fallbackFind (lines : List OcrLine) (used : List Nat) (i : Nat) (cy y_thresh x_split : ℚ) :
    Option Nat :=
  ([i + 1, i + 2].filter (· < lines.length)).find? (fun j =>
    !used.contains j &&
      (let nl := lines.getD j default
       decide (get_center_x nl.bounding_box > x_split) &&
         decide (|get_center_y nl.bounding_box - cy| ≤ y_thresh)))

/-- One iteration of the second (geometric) pass of
`extract_label_value_pairs`. The pair confidence is
`min(line.get("confidence", 1.0), value.get("confidence", 1.0))`, which raises
`TypeError` when either dict stores `None` under the key (written as an
explicit match on `pyMin`, the meaning of the Python expression that either
yields the minimum or raises before the append happens). -/
def geoStep (y_thresh x_split : ℚ) (page : Nat) (lines : List OcrLine)
    (st : List Pair × List Nat) (i : Nat) : Except String (List Pair × List Nat) :=
  if st.2.contains i then .ok st
  else if decide (get_center_x (lines.getD i default).bounding_box < x_split) then
    match bestAligned lines st.2 (lines.getD i default)
        (get_center_x (lines.getD i default).bounding_box) with
    | some b =>
        (match pyMin (getConfD (lines.getD i default) 1) (getConfD b 1) with
         | .ok c =>
            .ok (st.1 ++ [⟨(lines.getD i default).text.trim, b.text.trim, page, some c,
                b.bounding_box⟩],
              st.2 ++ [i, idxOfFirst lines b])
         | .error e => .error e)
    | none =>
      match fallbackFind lines st.2 i (get_center_y (lines.getD i default).bounding_box)
          y_thresh x_split with
      | some j =>
          (match pyMin (getConfD (lines.getD i default) 1)
              (getConfD (lines.getD j default) 1) with
           | .ok c =>
              .ok (st.1 ++ [⟨(lines.getD i default).text.trim,
                  (lines.getD j default).text.trim, page, some c,
                  (lines.getD j default).bounding_box⟩],
                st.2 ++ [i, j])
           | .error e => .error e)
      | none => .ok st
  else .ok st

/-- The complete geometric pass over one page buffer, continuing from the colon
pass state. -/
def geoPass (y_thresh x_split : ℚ) (page : Nat) (lines : List OcrLine)
    (st : List Pair × List Nat) : Except String (List Pair × List Nat) :=
  (List.range lines.length).foldlM (geoStep y_thresh x_split page lines) st

/-- Both passes of `extract_label_value_pairs` for one page buffer. -/
def processPage (y_thresh x_split : ℚ) (page : Nat) (lines : List OcrLine) :
    Except String (List Pair × List Nat) :=
  geoPass y_thresh x_split page lines (colonPass page lines)

/-- First-occurrence order of the pages of the `"line"`-type tokens, i.e. the
key order of the Python `defaultdict` page buffer. -/
def pageOrder (ls : List OcrLine) : List Nat :=
  ls.foldl (fun acc l => if acc.contains l.page then acc else acc ++ [l.page]) []

/-- The buffer of one page: all `"line"`-type tokens of that page in iteration
order. -/
def pageBuffer (ls : List OcrLine) (p : Nat) : List OcrLine :=
  ls.filter (fun l => l.page == p)

/-- `extract_label_value_pairs(ocr_lines, y_thresh, x_split)`: sort by
`(page, center y)`, keep only `"line"` tokens grouped per page, then run the
colon pass and the geometric pass on each page buffer, accumulating the pairs
over pages. -/
def extract_label_value_pairs (ocr_lines : List OcrLine) (y_thresh x_split : ℚ) :
    Except String (List Pair) :=
  let lineTokens := (pySorted ocr_lines).filter (fun l => l.type == "line")
  (pageOrder lineTokens).foldlM
    (fun acc p => do
      let (ps, _used) ← processPage y_thresh x_split p (pageBuffer lineTokens p)
      pure (acc ++ ps))
    []

/-- A normalized item as built by `normalize_ocr_lines`: a dict of type
`"label_value"` (keys `label`, `value`; its Python dict has no `text` key, here
`text = ""`) or `"text_line"` (key `text`; here `label = value = ""`). -/
structure Item where
  type : String
  label : String
  value : String
  text : String
  page : Nat
  confidence : Option ℚ
  bounding_box : Option (List Pt)
deriving DecidableEq, Inhabited

/-- The `label_value` item `normalize_ocr_lines` builds from one pair: when the
pair has no confidence, fall back to the original tokens whose text equals the
pair label and value. -/
def lvItem (ocr_lines : List OcrLine) (p : Pair) : Item :=
  let label_ocr := ocr_lines.find? (fun l => l.text == p.label)
  let value_ocr := ocr_lines.find? (fun l => l.text == p.value)
  let confidence :=
    match p.confidence, label_ocr, value_ocr with
    | none, some lo, some vo =>
        (match getConf lo, getConf vo with
         | some a, some b => some (min a b)
         | some a, none => some a
         | none, some b => some b
         | none, none => none)
    | c, _, _ => c
  { type := "label_value", label := p.label, value := p.value, text := "",
    page := p.page, confidence := confidence, bounding_box := p.bounding_box }

/-- The `text_line` item `normalize_ocr_lines` builds from one retained token. -/
def tlItem (l : OcrLine) : Item :=
  { type := "text_line", label := "", value := "", text := l.text.trim,
    page := l.page, confidence := getConf l, bounding_box := l.bounding_box }

/-- The guard of the text-line loop of `normalize_ocr_lines`: type `"line"` and
`bounding_box is not None`. -/
def isKeptLine (l : OcrLine) : Bool :=
  l.type == "line" && l.bounding_box.isSome

/-- `normalize_ocr_lines(ocr_lines)`: the label/value pairs (extracted with the
default thresholds `y_thresh=0.2`, `x_split=2.5`) followed by every `"line"`
token that has a bounding box. -/
def normalize_ocr_lines (ocr_lines : List OcrLine) : Except String (List Item) := do
  let pairs ← extract_label_value_pairs ocr_lines (0.2 : ℚ) (2.5 : ℚ)
  let structured := pairs.foldl (fun acc p => acc ++ [lvItem ocr_lines p]) []
  let structured := ocr_lines.foldl
    (fun acc l => if isKeptLine l then acc ++ [tlItem l] else acc) structured
  pure structured

/-! ## The OCR token extractor (`extract_text_lines_with_bbox_and_confidence`) -/

/-- A word of the raw OCR engine result: content, optional polygon, optional
engine confidence. -/
structure OcrWord where
  content : String
  polygon : Option (List Pt)
  confidence : Option ℚ
deriving DecidableEq, Inhabited

/-- A line of the raw OCR engine result. -/
structure LineIn where
  content : String
  polygon : Option (List Pt)
deriving DecidableEq, Inhabited

/-- One page of the raw OCR engine result. -/
structure PageIn where
  page_number : Nat
  lines : List LineIn
  words : List OcrWord
deriving DecidableEq, Inhabited

/-- The raw OCR engine result (`AnalyzeResult`). -/
structure AnalyzeResult where
  pages : List PageIn
deriving DecidableEq, Inhabited

/-- Round half to even, the tie-breaking rule of Python `round`. -/
def roundHalfEven (q : ℚ) : ℤ :=
  let f := ⌊q⌋
  if q - f < 1 / 2 then f
  else if 1 / 2 < q - f then f + 1
  else if f % 2 = 0 then f else f + 1

/-- Python `round(q, 2)`. -/
def round2 (q : ℚ) : ℚ := (roundHalfEven (q * 100) : ℚ) / 100

/-- The membership test of the word-collection loop: both polygons truthy and
the word polygon's centroid inside the line polygon's axis-aligned extent. -/
def wordInLineExtent (line : LineIn) (w : OcrWord) : Bool :=
  match w.polygon, line.polygon with
  | some (wp :: wps), some (lp :: lps) =>
      let wcx := get_center_x (some (wp :: wps))
      let wcy := get_center_y (some (wp :: wps))
      let minx := (lps.map Pt.x).foldl min lp.x
      let maxx := (lps.map Pt.x).foldl max lp.x
      let miny := (lps.map Pt.y).foldl min lp.y
      let maxy := (lps.map Pt.y).foldl max lp.y
      decide (minx ≤ wcx) && decide (wcx ≤ maxx) && decide (miny ≤ wcy) && decide (wcy ≤ maxy)
  | _, _ => false

/-- The `word_confidences` list collected for one line: loop over the page's
words, keep the confidence of each word inside the line extent when present. -/
def lineWordConfidences (page : PageIn) (line : LineIn) : List ℚ :=
  page.words.foldl
    (fun acc w =>
      if wordInLineExtent line w then
        match w.confidence with
        | some c => acc ++ [c]
        | none => acc
      else acc)
    []

/-- Python `[... for p in poly] if poly else None`: a missing or empty polygon
becomes `None`. -/
def pyBBox : Option (List Pt) → Option (List Pt)
  | some (p :: ps) => some (p :: ps)
  | _ => none

/-- `extract_text_lines_with_bbox_and_confidence(result)`: per page, one
`"line"` token per line (confidence averaged over contained words, rounded to
2 decimals, `None` if no word contributed) followed by one `"word"` token per
word (own confidence rounded to 2 decimals). -/
def extract_text_lines_with_bbox_and_confidence (result : AnalyzeResult) : List OcrLine :=
  result.pages.foldl
    (fun acc page =>
      (acc ++ page.lines.map (fun line =>
        let wcs := lineWordConfidences page line
        { type := "line", text := line.content, page := page.page_number,
          bounding_box := pyBBox line.polygon,
          confidence := some (if wcs.isEmpty then none
            else some (round2 (wcs.sum / (wcs.length : ℚ)))) }))
        ++ page.words.map (fun w =>
          { type := "word", text := w.content, page := page.page_number,
            bounding_box := pyBBox w.polygon,
            confidence := some (w.confidence.map round2) }))
    []

/-! ## Python values (for the JSON the model returns) -/

/-- A Python value as produced by `json.loads`: `None`, booleans, integers,
floats (modelled as rationals), strings, lists and string-keyed dicts. -/
inductive PyVal where
  | null : PyVal
  | bool (b : Bool) : PyVal
  | int (n : ℤ) : PyVal
  | num (q : ℚ) : PyVal
  | str (s : String) : PyVal
  | list (xs : List PyVal) : PyVal
  | dict (kvs : List (String × PyVal)) : PyVal
deriving Inhabited

/-- Python dict lookup `d.get(k)` over an association list (keys unique by
construction). -/
def pyLookup (kvs : List (String × PyVal)) (k : String) : Option PyVal :=
  match kvs.find? (fun kv => kv.1 == k) with
  | some kv => some kv.2
  | none => none

/-- Python dict assignment `d[k] = v`: update in place when the key exists,
keeping its position, else append. -/
def pyInsert (kvs : List (String × PyVal)) (k : String) (v : PyVal) :
    List (String × PyVal) :=
  match kvs with
  | [] => [(k, v)]
  | (k0, v0) :: rest => if k0 == k then (k0, v) :: rest else (k0, v0) :: pyInsert rest k v

/-- Python `needle in hay` on strings; the empty needle always matches. -/
def pyInAux (needle : List Char) : List Char → Bool
  | [] => needle.isEmpty
  | c :: rest => needle.isPrefixOf (c :: rest) || pyInAux needle rest

/-- Python substring containment test. -/
def pyIn (needle hay : String) : Bool := pyInAux needle.data hay.data

/-- Python `s.find(sub, start)`: least index `k ≥ start` at which `sub` occurs,
scanning `hay` with a running position counter. -/
def pyFindAux (sub : List Char) (start : Nat) : List Char → Nat → Option Nat
  | [], k => if sub.isEmpty && decide (start ≤ k) then some k else none
  | c :: rest, k =>
      if decide (start ≤ k) && sub.isPrefixOf (c :: rest) then some k
      else pyFindAux sub start rest (k + 1)

/-- Python `s.strip()` on a character list. -/
def stripChars (cs : List Char) : List Char :=
  ((cs.dropWhile Char.isWhitespace).reverse.dropWhile Char.isWhitespace).reverse

/-- Python `s.strip(c)` for a single strip character. -/
def stripCharSet (c : Char) (s : String) : String :=
  ⟨((s.data.dropWhile (· == c)).reverse.dropWhile (· == c)).reverse⟩

/-- Decimal digit run to a natural number. -/
def natOfDigits (ds : List Char) : Nat :=
  ds.foldl (fun n c => n * 10 + (c.toNat - 48)) 0

/-- Ten to an integer power, as a rational. -/
def qpow10 (e : ℤ) : ℚ :=
  if 0 ≤ e then ((10 : ℚ) ^ e.toNat) else 1 / ((10 : ℚ) ^ (-e).toNat)

/-- Decimal string of an integer. -/
def intDigitsStr (n : ℤ) : String :=
  if n < 0 then "-" ++ toString n.natAbs else toString n.natAbs

/-- Number of decimal fraction digits needed for `q` (fuel-bounded; every float
parsed from a decimal literal needs finitely many). -/
def pow10Count (fuel : Nat) (q : ℚ) : Nat :=
  match fuel with
  | 0 => 0
  | fuel + 1 => if q.den = 1 then 0 else pow10Count fuel (q * 10) + 1

/-- Python `str` of a float: decimal rendering with at least one fraction
digit. -/
def floatStr (q : ℚ) : String :=
  let k := max 1 (pow10Count 4000 q)
  let n : ℤ := (q * (10 : ℚ) ^ k).num
  let sign := if n < 0 then "-" else ""
  let ds := toString n.natAbs
  let ds := if ds.length ≤ k then String.mk (List.replicate (k + 1 - ds.length) '0') ++ ds
            else ds
  sign ++ (⟨ds.data.take (ds.length - k)⟩ : String) ++ "." ++
    (⟨ds.data.drop (ds.length - k)⟩ : String)

mutual

/-- Python `repr` of a value (containers render their elements with quotes). -/
def pyRepr : PyVal → String
  | .null => "None"
  | .bool b => if b then "True" else "False"
  | .int n => intDigitsStr n
  | .num q => floatStr q
  | .str s => "\x27" ++ s ++ "\x27"
  | .list xs => "[" ++ pyReprSeq xs ++ "]"
  | .dict kvs => "\x7b" ++ pyReprDict kvs ++ "\x7d"

/-- Comma-separated `repr` of list elements. -/
def pyReprSeq : List PyVal → String
  | [] => ""
  | [v] => pyRepr v
  | v :: vs => pyRepr v ++ ", " ++ pyReprSeq vs

/-- Comma-separated `repr` of dict entries. -/
def pyReprDict : List (String × PyVal) → String
  | [] => ""
  | [(k, v)] => "\x27" ++ k ++ "\x27: " ++ pyRepr v
  | (k, v) :: kvs => "\x27" ++ k ++ "\x27: " ++ pyRepr v ++ ", " ++ pyReprDict kvs

end

/-- Python `str(v)`: strings render as themselves, everything else as its
`repr`. -/
def pyToStr : PyVal → String
  | .str s => s
  | v => pyRepr v

/-! ## A model of `json.loads` -/

/-- JSON whitespace. -/
def jsonWs (c : Char) : Bool := c == ' ' || c == '\t' || c == '\n' || c == '\r'

/-- Skip leading JSON whitespace. -/
def skipWs : List Char → List Char
  | c :: cs => if jsonWs c then skipWs cs else c :: cs
  | [] => []

/-- Hexadecimal digit value. -/
def hexVal (c : Char) : Option Nat :=
  if c.isDigit then some (c.toNat - 48)
  else if 'a' ≤ c && c ≤ 'f' then some (c.toNat - 87)
  else if 'A' ≤ c && c ≤ 'F' then some (c.toNat - 55)
  else none

/-- Integer or float result of a JSON number (ints without fraction or
exponent stay ints, as in Python). -/
def mkJsonNum (isFloat neg : Bool) (q : ℚ) : PyVal :=
  let v := if neg then -q else q
  if isFloat then .num v else .int v.num

/-- Optional exponent part of a JSON number. -/
def jsonExpPart (base : ℚ) (neg isFloat : Bool) (cs : List Char) :
    Option (PyVal × List Char) :=
  match cs with
  | e :: cs1 =>
    if e == 'e' || e == 'E' then
      let (esign, cs2) :=
        match cs1 with
        | '+' :: r => ((1 : ℤ), r)
        | '-' :: r => ((-1 : ℤ), r)
        | _ => ((1 : ℤ), cs1)
      match cs2.span (·.isDigit) with
      | ([], _) => none
      | (eds, cs3) => some (mkJsonNum true neg (base * qpow10 (esign * (natOfDigits eds : ℤ))), cs3)
    else some (mkJsonNum isFloat neg base, e :: cs1)
  | [] => some (mkJsonNum isFloat neg base, [])

/-- Optional fraction and exponent parts of a JSON number. -/
def jsonFracExp (ipart : ℚ) (neg : Bool) (cs : List Char) : Option (PyVal × List Char) :=
  match cs with
  | '.' :: cs3 =>
    match cs3.span (·.isDigit) with
    | ([], _) => none
    | (fds, cs4) =>
        jsonExpPart (ipart + (natOfDigits fds : ℚ) / ((10 : ℚ) ^ fds.length)) neg true cs4
  | _ => jsonExpPart ipart neg false cs

/-- A JSON number (sign, integer part without leading zeros, optional fraction
and exponent). -/
def jsonNumber (cs : List Char) : Option (PyVal × List Char) :=
  let (neg, cs1) :=
    match cs with
    | '-' :: rest => (true, rest)
    | _ => (false, cs)
  let (ids, cs2) := cs1.span (·.isDigit)
  if ids.isEmpty then none
  else if decide (1 < ids.length) && (ids.headD '0' == '0') then none
  else jsonFracExp (natOfDigits ids : ℚ) neg cs2

mutual

/-- One JSON value, fuel-bounded recursive descent. -/
def jsonVal (fuel : Nat) (cs : List Char) : Option (PyVal × List Char) :=
  match fuel with
  | 0 => none
  | fuel + 1 =>
    match skipWs cs with
    | 'n' :: 'u' :: 'l' :: 'l' :: rest => some (.null, rest)
    | 't' :: 'r' :: 'u' :: 'e' :: rest => some (.bool true, rest)
    | 'f' :: 'a' :: 'l' :: 's' :: 'e' :: rest => some (.bool false, rest)
    | '"' :: rest =>
        match jsonStringBody fuel rest [] with
        | some (s, r) => some (.str s, r)
        | none => none
    | '[' :: rest => jsonArray fuel (skipWs rest)
    | '\x7b' :: rest => jsonObject fuel (skipWs rest)
    | c :: rest => if c == '-' || c.isDigit then jsonNumber (c :: rest) else none
    | [] => none

/-- Array tail after `[`, empty case. -/
def jsonArray (fuel : Nat) (cs : List Char) : Option (PyVal × List Char) :=
  match fuel with
  | 0 => none
  | fuel + 1 =>
    match cs with
    | ']' :: rest => some (.list [], rest)
    | _ => jsonArrayItems fuel cs []

/-- Comma-separated array elements. -/
def jsonArrayItems (fuel : Nat) (cs : List Char) (acc : List PyVal) :
    Option (PyVal × List Char) :=
  match fuel with
  | 0 => none
  | fuel + 1 =>
    match jsonVal fuel cs with
    | some (v, rest) =>
      match skipWs rest with
      | ',' :: rest2 => jsonArrayItems fuel rest2 (acc ++ [v])
      | ']' :: rest2 => some (.list (acc ++ [v]), rest2)
      | _ => none
    | none => none

/-- Object tail after the opening brace, empty case. -/
def jsonObject (fuel : Nat) (cs : List Char) : Option (PyVal × List Char) :=
  match fuel with
  | 0 => none
  | fuel + 1 =>
    match cs with
    | '\x7d' :: rest => some (.dict [], rest)
    | _ => jsonObjectItems fuel cs []

/-- Comma-separated object entries (duplicate keys: last value wins, first
position kept, as in Python dicts). -/
def jsonObjectItems (fuel : Nat) (cs : List Char) (acc : List (String × PyVal)) :
    Option (PyVal × List Char) :=
  match fuel with
  | 0 => none
  | fuel + 1 =>
    match skipWs cs with
    | '"' :: rest =>
      match jsonStringBody fuel rest [] with
      | some (k, rest2) =>
        match skipWs rest2 with
        | ':' :: rest3 =>
          match jsonVal fuel rest3 with
          | some (v, rest4) =>
            match skipWs rest4 with
            | ',' :: rest5 => jsonObjectItems fuel rest5 (pyInsert acc k v)
            | '\x7d' :: rest5 => some (.dict (pyInsert acc k v), rest5)
            | _ => none
          | none => none
        | _ => none
      | none => none
    | _ => none

/-- String body after the opening quote, with escapes; raw control characters
are rejected as Python does. -/
def jsonStringBody (fuel : Nat) (cs : List Char) (acc : List Char) :
    Option (String × List Char) :=
  match fuel with
  | 0 => none
  | fuel + 1 =>
    match cs with
    | '"' :: rest => some (⟨acc⟩, rest)
    | '\\' :: e :: rest =>
      match e with
      | '"' => jsonStringBody fuel rest (acc ++ ['"'])
      | '\\' => jsonStringBody fuel rest (acc ++ ['\\'])
      | '/' => jsonStringBody fuel rest (acc ++ ['/'])
      | 'b' => jsonStringBody fuel rest (acc ++ ['\x08'])
      | 'f' => jsonStringBody fuel rest (acc ++ ['\x0c'])
      | 'n' => jsonStringBody fuel rest (acc ++ ['\n'])
      | 'r' => jsonStringBody fuel rest (acc ++ ['\x0d'])
      | 't' => jsonStringBody fuel rest (acc ++ ['\t'])
      | 'u' =>
        match rest with
        | h1 :: h2 :: h3 :: h4 :: rest2 =>
          match hexVal h1, hexVal h2, hexVal h3, hexVal h4 with
          | some a, some b, some c, some d =>
              jsonStringBody fuel rest2 (acc ++ [Char.ofNat (((a * 16 + b) * 16 + c) * 16 + d)])
          | _, _, _, _ => none
        | _ => none
      | _ => none
    | c :: rest => if c.toNat < 32 then none else jsonStringBody fuel rest (acc ++ [c])
    | [] => none

end

/-- `json.loads` on a character list: one value, then only whitespace. -/
def jsonValLoads (cs : List Char) : Option PyVal :=
  match jsonVal (4 * cs.length + 16) cs with
  | some (v, rest) => if (skipWs rest).isEmpty then some v else none
  | none => none

/-- `json.loads` on a string. -/
def jsonLoads (s : String) : Option PyVal := jsonValLoads s.data

/-! ## `extract_json_from_response` -/

/-- Cut a line at the first `//`, Python `line[:line.find("//")]`. -/
def cutComment (line : List Char) : List Char :=
  match pyFindAux "//".data 0 line 0 with
  | some k => line.take k
  | none => line

/-- Start of the fenced content: one past the first newline at or after the
opening fence, or index 0 when there is none (Python `find` returns `-1` and
the code adds 1). -/
def fenceContentStart (cs : List Char) (start0 : Nat) : Nat :=
  match pyFindAux ['\n'] start0 cs 0 with
  | some n => n + 1
  | none => 0

/-- The code-fence stripping step of `extract_json_from_response`: when the
response contains three backticks, slice from after the first newline
following the opening fence up to the next fence, and strip the slice. -/
def stripFence (response : String) : List Char :=
  if pyIn "```" response then
    match pyFindAux "```".data 0 response.data 0 with
    | some start0 =>
      match pyFindAux "```".data (fenceContentStart response.data start0) response.data 0 with
      | some e =>
          stripChars ((response.data.drop (fenceContentStart response.data start0)).take
            (e - fenceContentStart response.data start0))
      | none => response.data
    | none => response.data
  else response.data

/-- The comment-removing step: split on newlines, cut each line at `//`,
rejoin. -/
def decomment (cs : List Char) : List Char :=
  List.intercalate ['\n'] ((cs.splitOn '\n').map cutComment)

/-- `extract_json_from_response(response)`: strip the first code fence if any,
remove `//` comments per line, then a single `json.loads`; on failure raise
`ValueError("Invalid JSON in response: ...")`. -/
def extract_json_from_response (response : String) : Except String PyVal :=
  match jsonValLoads (decomment (stripFence response)) with
  | some v => .ok v
  | none => .error "Invalid JSON in response"

/-- Top-level balanced brace blocks of a string (depth tracking), used by the
specified-but-not-implemented fallback strategy. -/
def braceBlocks : List Char → Nat → List Char → List (List Char) → List (List Char)
  | [], _, _, acc => acc
  | c :: rest, depth, cur, acc =>
    if c == '\x7b' then
      if depth == 0 then braceBlocks rest 1 ['\x7b'] acc
      else braceBlocks rest (depth + 1) (cur ++ [c]) acc
    else if c == '\x7d' then
      match depth with
      | 0 => braceBlocks rest 0 cur acc
      | 1 => braceBlocks rest 0 [] (acc ++ [cur ++ ['\x7d']])
      | d + 2 => braceBlocks rest (d + 1) (cur ++ [c]) acc
    else if decide (0 < depth) then braceBlocks rest depth (cur ++ [c]) acc
    else braceBlocks rest depth cur acc

/-- The response parser as the specification describes it (for comparison with
the implemented one): direct parse of the raw response first; on failure, scan
for top-level balanced brace blocks and parse the last one found; only if that
also fails, a decoding error that preserves the raw response. -/
def extract_json_spec (response : String) : Except String PyVal :=
  match jsonValLoads response.data with
  | some v => .ok v
  | none =>
    match (braceBlocks response.data 0 [] []).getLast? with
    | some blk =>
      match jsonValLoads blk with
      | some v => .ok v
      | none => .error response
    | none => .error response

/-! ## Field reconciliation (`extract_fields_with_llm`, async version) -/

/-- The static per-document-type configuration (`src/config.py`
`DocumentTypeConfig`), with dict-valued fields as association lists. -/
structure DocumentTypeConfig where
  name : String
  expected_fields : List String
  field_descriptions : List (String × String)
  validation_rules : List (String × List (String × PyVal))
  field_mappings : List (String × String)

/-- `create_extraction_prompt(ocr_lines, config)`: the prompt listing field
descriptions (with the German name taken from the last parenthesis of the
description), the label mappings, and the rendered normalized items. -/
def create_extraction_prompt (ocr_lines : List Item) (config : DocumentTypeConfig) : String :=
  let field_descriptions := config.field_descriptions.map (fun fd =>
    let german_name :=
      if pyIn "(" fd.2 then stripCharSet ')' ((fd.2.splitOn "(").getLastD fd.2) else ""
    "- " ++ fd.1 ++ " (" ++ german_name ++ "): " ++ fd.2)
  let field_mappings := config.field_mappings.map (fun ge => "- " ++ ge.1 ++ " → " ++ ge.2)
  let formatted_lines := ocr_lines.filterMap (fun line =>
    if line.type == "label_value" then some (line.label ++ ": " ++ line.value)
    else if line.type == "text_line" then some line.text
    else if line.type == "line" then some line.text
    else none)
  let fdJoin := String.intercalate "\n" field_descriptions
  let fmJoin := String.intercalate "\n" field_mappings
  let flJoin := String.intercalate "\n" formatted_lines
  "Extract the following fields from the document content below. Return a valid JSON object with the extracted fields.\n\nField Descriptions:\n"
    ++ fdJoin
    ++ "\n\nField Mappings (use these exact field names in your response):\n"
    ++ fmJoin
    ++ "\n\nDocument Content:\n"
    ++ flJoin
    ++ "\n\nInstructions:\n1. Return a valid JSON object with the extracted fields\n2. Use the exact field names from the mappings above\n3. Include only fields that are present in the document\n4. For fields with units (e.g., years, currency), include the unit in the value\n5. For boolean fields, return true/false\n6. For dates, use the format DD.MM.YYYY\n7. For numbers, include any units or currency symbols\n\nExample response format:\n\x7b\n    \"extracted_fields\": \x7b\n        \"company_name\": \"Demo Tech GmbH\",\n        \"legal_form\": \"GmbH\",\n        \"founding_date\": \"01.01.2020\",\n        \"business_address\": \"Musterstraße 123, 12345 Berlin\",\n        \"purchase_price\": \"500.000 €\",\n        \"term\": \"20 Jahre\",\n        \"interest_rate\": \"3,5%\"\n    \x7d,\n    \"missing_fields\": [\"website\", \"vat_id\"],\n    \"validation_results\": \x7b\n        \"company_name\": \x7b\"valid\": true\x7d,\n        \"legal_form\": \x7b\"valid\": true\x7d,\n        \"founding_date\": \x7b\"valid\": true\x7d\n    \x7d\n\x7d\n\nPlease extract the fields from the document content above and return a JSON object in this format."

/-- Python `str.replace(".", "").replace(",", ".")`: the German number
normalization of `validate_field`. -/
def germanize (s : String) : String :=
  ⟨(s.data.filter (fun c => !(c == '.'))).map (fun c => if c == ',' then '.' else c)⟩

/-- A value usable on the right of a float comparison without conversion
(Python numbers and booleans). -/
def pyNumVal : PyVal → Option ℚ
  | .int n => some (n : ℚ)
  | .num q => some q
  | .bool b => some (if b then 1 else 0)
  | _ => none

/-- Exponent suffix of a Python float literal. -/
def floatExpPart (cs : List Char) : Option (ℤ × List Char) :=
  match cs with
  | e :: r =>
    if e == 'e' || e == 'E' then
      let (esign, r2) :=
        match r with
        | '+' :: r2 => ((1 : ℤ), r2)
        | '-' :: r2 => ((-1 : ℤ), r2)
        | _ => ((1 : ℤ), r)
      match r2.span (·.isDigit) with
      | ([], _) => none
      | (eds, r3) => some (esign * (natOfDigits eds : ℤ), r3)
    else some (0, e :: r)
  | [] => some (0, [])

/-- Python `float(s)` on a string: optional sign, digits with optional decimal
point (at least one digit overall), optional exponent, surrounding
whitespace. -/
def pyFloatOfStr (s : String) : Option ℚ :=
  let cs := stripChars s.data
  let (sgn, cs1) :=
    match cs with
    | '+' :: r => ((1 : ℚ), r)
    | '-' :: r => ((-1 : ℚ), r)
    | _ => ((1 : ℚ), cs)
  let (ids, cs2) := cs1.span (·.isDigit)
  let (fds, cs3) : List Char × List Char :=
    match cs2 with
    | '.' :: r => r.span (fun c => c.isDigit)
    | _ => ([], cs2)
  if ids.isEmpty && fds.isEmpty then none
  else
    match floatExpPart cs3 with
    | some (ev, rest) =>
      if rest.isEmpty then
        some (sgn * ((natOfDigits ids : ℚ) +
          (natOfDigits fds : ℚ) / ((10 : ℚ) ^ fds.length)) * qpow10 ev)
      else none
    | none => none

/-- Python `float(v)`: numbers and booleans convert, strings parse, everything
else raises. -/
def pyFloatOfVal : PyVal → Option ℚ
  | .str s => pyFloatOfStr s
  | .int n => some (n : ℚ)
  | .num q => some q
  | .bool b => some (if b then 1 else 0)
  | _ => none

/-- `validate_field(value, rules)`: the `{"is_valid": ..., "errors": [...]}`
dict. The German replacement reassigns `field_value`, so a later `min`/`max`
block sees (and re-replaces) the already-replaced string, as the Python does.
A non-string `pattern` rule makes `re.match` raise, hence the `Except`. -/
def validate_field (value : PyVal) (rules : List (String × PyVal))
    (reMatch : String → String → Bool) : Except String PyVal :=
  match value with
  | .dict kvs =>
    match pyLookup kvs "value" with
    | none => .ok (.dict [("is_valid", .bool false),
        ("errors", .list [.str "Invalid field format"])])
    | some fv0 =>
      let (fv1, errs1) :=
        match pyLookup rules "type" with
        | some (.str "number") =>
          let fvg := match fv0 with | .str s => PyVal.str (germanize s) | v => v
          (fvg, match pyFloatOfVal fvg with
                | some _ => ([] : List String)
                | none => ["Value must be a number"])
        | some (.str "boolean") =>
          (fv0, if (pyToStr fv0).toLower == "true" || (pyToStr fv0).toLower == "false"
            then ([] : List String) else ["Value must be a boolean"])
        | _ => (fv0, [])
      let (fv2, errs2) :=
        match pyLookup rules "min", pyLookup rules "type" with
        | some mn, some (.str "number") =>
          let fvg := match fv1 with | .str s => PyVal.str (germanize s) | v => v
          (fvg, match pyFloatOfVal fvg, pyNumVal mn with
                | some x, some m =>
                    if x < m then ["Value must be at least " ++ pyToStr mn]
                    else ([] : List String)
                | _, _ => [])
        | _, _ => (fv1, [])
      let (fv3, errs3) :=
        match pyLookup rules "max", pyLookup rules "type" with
        | some mx, some (.str "number") =>
          let fvg := match fv2 with | .str s => PyVal.str (germanize s) | v => v
          (fvg, match pyFloatOfVal fvg, pyNumVal mx with
                | some x, some m =>
                    if m < x then ["Value must be at most " ++ pyToStr mx]
                    else ([] : List String)
                | _, _ => [])
        | _, _ => (fv2, [])
      match pyLookup rules "pattern" with
      | some (.str p) =>
        let errs4 := if reMatch p (pyToStr fv3) then ([] : List String)
          else ["Value does not match required pattern"]
        let errs := errs1 ++ errs2 ++ errs3 ++ errs4
        .ok (.dict [("is_valid", .bool errs.isEmpty), ("errors", .list (errs.map .str))])
      | some _ => .error "TypeError: re.match pattern must be a string"
      | none =>
        let errs := errs1 ++ errs2 ++ errs3
        .ok (.dict [("is_valid", .bool errs.isEmpty), ("errors", .list (errs.map .str))])
  | _ => .ok (.dict [("is_valid", .bool false),
      ("errors", .list [.str "Invalid field format"])])

/-- `validate_extracted_fields(fields, doc_config)`: one validation result per
field that has configured rules. -/
def validate_extracted_fields (fields : List (String × PyVal))
    (doc_config : DocumentTypeConfig) (reMatch : String → String → Bool) :
    Except String (List (String × PyVal)) :=
  fields.foldlM
    (fun acc nd =>
      match doc_config.validation_rules.find? (fun r => r.1 == nd.1) with
      | some r =>
        match validate_field nd.2 r.2 reMatch with
        | .ok vr => .ok (pyInsert acc nd.1 vr)
        | .error e => .error e
      | none => .ok acc)
    []

/-- The lowercased configured source-language labels mapped to `field_name`. -/
def germanLabelsOf (field_mappings : List (String × String)) (field_name : String) :
    List String :=
  field_mappings.filterMap (fun ge => if ge.2 == field_name then some ge.1.toLower else none)

/-- A stored optional confidence as the Python value put into the result
dict. -/
def pyOfOptQ : Option ℚ → PyVal
  | none => .null
  | some q => .num q

/-- A stored optional bounding box as the Python value put into the result
dict. -/
def pyOfBBox : Option (List Pt) → PyVal
  | none => .null
  | some ps => .list (ps.map (fun p => .dict [("x", .num p.x), ("y", .num p.y)]))

/-- `matching_line.get("confidence", 0.5)` on a raw token dict: `0.5` only when
the key is absent; a stored `None` stays `None`. -/
def lineConfVal (l : OcrLine) : PyVal :=
  match l.confidence with
  | none => .num (1 / 2)
  | some none => .null
  | some (some q) => .num q

/-- The first normalized `label_value` item whose lowercased label contains one
of the configured source-language labels, or whose lowercased value contains
the lowercased field value string. -/
def findMatchingPair (ocr_lines : List Item) (german_labels : List String)
    (value_str : String) : Option Item :=
  ocr_lines.find? (fun line =>
    line.type == "label_value" &&
      (german_labels.any (fun l => pyIn l line.label.toLower) ||
        pyIn value_str line.value.toLower))

/-- The first `"line"`-kind raw token whose lowercased text contains the value
string or one of the labels, searched only when the caller passed original
lines. -/
def findMatchingLine (original_ocr_lines : Option (List OcrLine)) (german_labels : List String)
    (value_str : String) : Option OcrLine :=
  match original_ocr_lines with
  | some ls =>
      ls.find? (fun l =>
        l.type == "line" &&
          (pyIn value_str l.text.toLower ||
            german_labels.any (fun g => pyIn g l.text.toLower)))
  | none => none

/-- Coercion of the model-returned per-field data: non-dict values become
`{"value": raw}`, a missing `value` key is defaulted to `None`. -/
def coerceFieldData (field_data : PyVal) : List (String × PyVal) :=
  match field_data with
  | .dict kvs => if (pyLookup kvs "value").isSome then kvs else pyInsert kvs "value" .null
  | v => [("value", v)]

/-- The `value` entry of the coerced field data (always present). -/
def fieldValueOf (field_data : PyVal) : PyVal :=
  (pyLookup (coerceFieldData field_data) "value").getD .null

/-- The per-field body of steps 2-3 of `extract_fields_with_llm`: coerce the
field data, then re-ground a non-null value against the normalized
`label_value` items and, failing that, the original `"line"` tokens; with no
match (or a null value) keep the model value with confidence 0.5. -/
def processField (ocr_lines : List Item) (original_ocr_lines : Option (List OcrLine))
    (field_mappings : List (String × String)) (field_name : String)
    (field_data : PyVal) : PyVal :=
  match fieldValueOf field_data with
  | .null => .dict [("value", .null), ("confidence", .num (1 / 2))]
  | v =>
    match findMatchingPair ocr_lines (germanLabelsOf field_mappings field_name)
        ((pyToStr v).toLower) with
    | some mp =>
        .dict [("value", .str mp.value), ("confidence", pyOfOptQ mp.confidence),
          ("bounding_box", pyOfBBox mp.bounding_box), ("page", .int mp.page)]
    | none =>
      match findMatchingLine original_ocr_lines (germanLabelsOf field_mappings field_name)
          ((pyToStr v).toLower) with
      | some ml =>
          .dict [("value", .str ml.text), ("confidence", lineConfVal ml),
            ("bounding_box", pyOfBBox ml.bounding_box), ("page", .int ml.page)]
      | none => .dict [("value", v), ("confidence", .num (1 / 2))]

/-- Step 2 loop of `extract_fields_with_llm`: one processed entry per field the
model returned, in model order. -/
def extractedOf (ocr_lines : List Item) (original_ocr_lines : Option (List OcrLine))
    (field_mappings : List (String × String)) (ef : List (String × PyVal)) :
    List (String × PyVal) :=
  ef.foldl
    (fun acc nf =>
      pyInsert acc nf.1 (processField ocr_lines original_ocr_lines field_mappings nf.1 nf.2))
    []

/-- The canonical name a raw field key maps to: its image under
`field_mappings` when present there, else itself. -/
def mappedKey (field_mappings : List (String × String)) (n : String) : String :=
  match field_mappings.find? (fun ge => ge.1 == n) with
  | some ge => ge.2
  | none => n

/-- Step 4 of `extract_fields_with_llm`: rename keys through `field_mappings`,
unmapped keys pass through. -/
def mappedOf (field_mappings : List (String × String))
    (extracted : List (String × PyVal)) : List (String × PyVal) :=
  extracted.foldl
    (fun acc nd => pyInsert acc (mappedKey field_mappings nd.1) nd.2)
    []

/-- Shape of one reconciled field dict: no `source` tag, and `value` and
`confidence` entries present. -/
def fieldDictShapeOk (v : PyVal) : Prop :=
  match v with
  | .dict kvs => pyLookup kvs "source" = none ∧ (pyLookup kvs "value").isSome = true ∧
      (pyLookup kvs "confidence").isSome = true
  | _ => False

/-- The result dict of `extract_fields_with_llm`. -/
structure ReconcileResult where
  extracted_fields : List (String × PyVal)
  missing_fields : PyVal
  validation_results : List (String × PyVal)

/-- The async `extract_fields_with_llm(ocr_lines, doc_config, llm_client,
original_ocr_lines)`. The generation capability and `re.match` are passed as
functions; a falsy (`None` or empty) `original_ocr_lines` disables the
fallback search. Failures of the capability, of JSON decoding, of the duck
typing on the model result, and of `re.match` propagate as errors. -/
def extract_fields_with_llm (ocr_lines : List Item) (doc_config : DocumentTypeConfig)
    (generate : String → Except String String)
    (original_ocr_lines : Option (List OcrLine))
    (reMatch : String → String → Bool) : Except String ReconcileResult :=
  if ocr_lines.isEmpty then
    .ok ⟨[], .list (doc_config.expected_fields.map .str), []⟩
  else
    match generate (create_extraction_prompt ocr_lines doc_config) with
    | .error e => .error e
    | .ok response =>
      match extract_json_from_response response with
      | .error e => .error e
      | .ok llm_result =>
        match llm_result with
        | .dict lr =>
          match (pyLookup lr "extracted_fields").getD (.dict []) with
          | .dict ef =>
            match validate_extracted_fields
                (mappedOf doc_config.field_mappings
                  (extractedOf ocr_lines original_ocr_lines doc_config.field_mappings ef))
                doc_config reMatch with
            | .ok validation_results =>
                .ok ⟨mappedOf doc_config.field_mappings
                    (extractedOf ocr_lines original_ocr_lines doc_config.field_mappings ef),
                  (pyLookup lr "missing_fields").getD (.list []),
                  validation_results⟩
            | .error e => .error e
          | _ => .error "AttributeError: extracted_fields is not a dict"
        | _ => .error "AttributeError: the decoded response is not a dict"

/-! ## General list lemmas about the loop shapes used above -/

theorem foldl_append_singleton {α β : Type} (f : α → β) :
    ∀ (l : List α) (init : List β),
      l.foldl (fun acc a => acc ++ [f a]) init = init ++ l.map f := by
  intro l
  induction l with
  | nil => intro init; simp
  | cons a l ih => intro init; simp [ih]

theorem foldl_filter_append {α β : Type} (p : α → Bool) (f : α → β) :
    ∀ (l : List α) (init : List β),
      l.foldl (fun acc a => if p a then acc ++ [f a] else acc) init =
        init ++ (l.filter p).map f := by
  intro l
  induction l with
  | nil => intro init; simp
  | cons a l ih =>
    intro init
    by_cases h : p a <;> simp [h, ih]

theorem foldl_flatMap {α β : Type} (f : α → List β) :
    ∀ (l : List α) (init : List β),
      l.foldl (fun acc a => acc ++ f a) init = init ++ l.flatMap f := by
  intro l
  induction l with
  | nil => intro init; simp
  | cons a l ih => intro init; simp [ih]

theorem lineWordConfidences_eq (page : PageIn) (line : LineIn) :
    lineWordConfidences page line =
      (page.words.filter (wordInLineExtent line)).filterMap OcrWord.confidence := by
  unfold lineWordConfidences
  suffices h : ∀ (ws : List OcrWord) (init : List ℚ),
      ws.foldl
        (fun acc w =>
          if wordInLineExtent line w then
            match w.confidence with
            | some c => acc ++ [c]
            | none => acc
          else acc)
        init = init ++ (ws.filter (wordInLineExtent line)).filterMap OcrWord.confidence by
    simpa using h page.words []
  intro ws
  induction ws with
  | nil => intro init; simp
  | cons w ws ih =>
    intro init
    by_cases hw : wordInLineExtent line w
    · cases hc : w.confidence <;> simp [hw, hc, ih]
    · simp [hw, ih]

theorem foldl_flatMap2 {α β : Type} (f g : α → List β) :
    ∀ (l : List α) (init : List β),
      l.foldl (fun acc a => (acc ++ f a) ++ g a) init =
        init ++ l.flatMap (fun a => f a ++ g a) := by
  intro l init
  have hfun : (fun (acc : List β) a => (acc ++ f a) ++ g a) =
      fun acc a => acc ++ (f a ++ g a) := by
    funext acc a
    rw [List.append_assoc]
  rw [hfun, foldl_flatMap (fun a => f a ++ g a)]

/-- C8: in the token extractor, each emitted line token carries the arithmetic
mean, rounded to 2 decimal places, of the confidences of the same-page words
whose polygon centroid falls within the line polygon's axis-aligned extent
(`None` when no such word contributes a confidence), and each emitted word
token carries its own confidence rounded to 2 decimal places. -/
theorem c8_line_confidence_is_rounded_mean (result : AnalyzeResult) :
    extract_text_lines_with_bbox_and_confidence result =
      result.pages.flatMap (fun page =>
        page.lines.map (fun line =>
          let collected := (page.words.filter (wordInLineExtent line)).filterMap OcrWord.confidence
          { type := "line", text := line.content, page := page.page_number,
            bounding_box := pyBBox line.polygon,
            confidence := some (if collected.isEmpty then none
              else some (round2 (collected.sum / (collected.length : ℚ)))) }) ++
        page.words.map (fun w =>
          { type := "word", text := w.content, page := page.page_number,
            bounding_box := pyBBox w.polygon,
            confidence := some (w.confidence.map round2) })) := by
  unfold extract_text_lines_with_bbox_and_confidence
  rw [foldl_flatMap2]
  simp [lineWordConfidences_eq]

/-! ## Shape of `normalize_ocr_lines` output -/

theorem normalize_ok_shape (ls : List OcrLine) (pairs : List Pair)
    (h : extract_label_value_pairs ls (0.2 : ℚ) (2.5 : ℚ) = .ok pairs) :
    normalize_ocr_lines ls =
      .ok (pairs.map (lvItem ls) ++ (ls.filter isKeptLine).map tlItem) := by
  unfold normalize_ocr_lines
  rw [h]
  simp only [bind, Except.bind, foldl_append_singleton, foldl_filter_append,
    List.nil_append, pure]
  rfl

theorem normalize_ok_inv (ls : List OcrLine) (res : List Item)
    (hn : normalize_ocr_lines ls = .ok res) :
    ∃ pairs, extract_label_value_pairs ls (0.2 : ℚ) (2.5 : ℚ) = .ok pairs := by
  unfold normalize_ocr_lines at hn
  cases hex : extract_label_value_pairs ls (0.2 : ℚ) (2.5 : ℚ) with
  | error e => rw [hex] at hn; simp [bind, Except.bind] at hn
  | ok ps => exact ⟨ps, rfl⟩

/-- C10: a successful `normalize_ocr_lines` run produces exactly one
`label_value` item per extracted pair, in pair order, followed by exactly one
`text_line` item per `"line"`-kind token with a bounding box, in input order. -/
theorem c10_normalize_output_order (ls : List OcrLine) (pairs : List Pair) (res : List Item)
    (hp : extract_label_value_pairs ls (0.2 : ℚ) (2.5 : ℚ) = .ok pairs)
    (hn : normalize_ocr_lines ls = .ok res) :
    res = pairs.map (lvItem ls) ++ (ls.filter isKeptLine).map tlItem := by
  have hshape := normalize_ok_shape ls pairs hp
  rw [hn] at hshape
  exact Except.ok.inj hshape

/-- Witness for C10 at a concrete one-line input. -/
theorem c10_normalize_output_order_witness :
    [(⟨"label_value", "A", "B", "", 1, some 1, some [⟨1, 1⟩]⟩ : Item),
     ⟨"text_line", "", "", "A: B", 1, some 1, some [⟨1, 1⟩]⟩] =
      ([(⟨"A", "B", 1, some 1, some [⟨1, 1⟩]⟩ : Pair)]).map
          (lvItem [⟨"line", "A: B", 1, some [⟨1, 1⟩], some (some 1)⟩]) ++
        (([(⟨"line", "A: B", 1, some [⟨1, 1⟩], some (some 1)⟩ : OcrLine)]).filter
            isKeptLine).map tlItem :=
  c10_normalize_output_order
    [⟨"line", "A: B", 1, some [⟨1, 1⟩], some (some 1)⟩]
    [⟨"A", "B", 1, some 1, some [⟨1, 1⟩]⟩]
    [⟨"label_value", "A", "B", "", 1, some 1, some [⟨1, 1⟩]⟩,
     ⟨"text_line", "", "", "A: B", 1, some 1, some [⟨1, 1⟩]⟩]
    (by with_unfolding_all rfl) (by with_unfolding_all rfl)

/-- C2 counterexample: a colon-splittable line without a bounding box yields a
`label_value` item whose `bounding_box` is `None`, so not every normalized item
retains a bounding box. -/
theorem c2_counterexample :
    normalize_ocr_lines [⟨"line", "A: B", 1, none, some (some (9 / 10))⟩] =
      .ok [⟨"label_value", "A", "B", "", 1, some (9 / 10), none⟩] := by
  with_unfolding_all rfl

/-- C2 (amended): every `text_line` item of a successful `normalize_ocr_lines`
run has a bounding box; `"line"` tokens without one never appear as `text_line`
items. (`label_value` items, by `c2_counterexample`, may lack one.) -/
theorem c2_text_line_items_have_boxes (ls : List OcrLine) (res : List Item)
    (hn : normalize_ocr_lines ls = .ok res) :
    ∀ it ∈ res, it.type = "text_line" → it.bounding_box.isSome = true := by
  obtain ⟨pairs, hp⟩ := normalize_ok_inv ls res hn
  have hshape := normalize_ok_shape ls pairs hp
  rw [hn] at hshape
  have hres := Except.ok.inj hshape
  intro it hit hty
  rw [hres] at hit
  rcases List.mem_append.1 hit with h1 | h2
  · obtain ⟨p, _, rfl⟩ := List.mem_map.1 h1
    exact absurd hty (by simp [lvItem])
  · obtain ⟨l, hl, rfl⟩ := List.mem_map.1 h2
    have hk : isKeptLine l = true := (List.mem_filter.1 hl).2
    simp [isKeptLine] at hk
    simpa [tlItem] using hk.2

/-- Witness for C2 (amended) at the concrete input of the C10 witness. -/
theorem c2_text_line_items_have_boxes_witness :
    (Item.bounding_box ⟨"text_line", "", "", "A: B", 1, some 1, some [⟨1, 1⟩]⟩).isSome = true :=
  c2_text_line_items_have_boxes
    [⟨"line", "A: B", 1, some [⟨1, 1⟩], some (some 1)⟩]
    [⟨"label_value", "A", "B", "", 1, some 1, some [⟨1, 1⟩]⟩,
     ⟨"text_line", "", "", "A: B", 1, some 1, some [⟨1, 1⟩]⟩]
    (by with_unfolding_all rfl)
    ⟨"text_line", "", "", "A: B", 1, some 1, some [⟨1, 1⟩]⟩
    (by simp) rfl

/-- C3: with pipeline-shaped tokens (whose `confidence` key is always present,
holding `None` when unknown), a geometric match involving a line of unknown
confidence raises `TypeError` instead of treating the unknown confidence
as 1.0: `line.get("confidence", 1.0)` returns the stored `None` and
`min(None, 0.9)` is ill-typed. -/
theorem c3_none_confidence_raises :
    extract_label_value_pairs
        [⟨"line", "Firmenname", 1, some [⟨1, 1⟩, ⟨2, 1⟩], some none⟩,
         ⟨"line", "Demo GmbH", 1, some [⟨3, 1⟩, ⟨4, 1⟩], some (some (9 / 10))⟩]
        (0.2 : ℚ) (2.5 : ℚ) =
      .error "TypeError: '<' not supported between float and NoneType" := by
  with_unfolding_all rfl

/-- C9 counterexample: a whitespace-only line at label position with an aligned
value line yields a geometric pair whose label is empty after trimming; the
geometric pass does not discard pairs with empty label or value. -/
theorem c9_counterexample :
    extract_label_value_pairs
        [⟨"line", " ", 1, some [⟨1, 1⟩], some (some 1)⟩,
         ⟨"line", "V", 1, some [⟨3, 1⟩], some (some 1)⟩] (0.2 : ℚ) (2.5 : ℚ) =
      .ok [⟨"", "V", 1, some 1, some [⟨3, 1⟩]⟩] := by
  with_unfolding_all rfl

/-! ## Characterization of the colon pass -/

theorem colonSplittable_eq_stripped (t : String) :
    strippedSplittable t.trim = colonSplittable t := rfl

theorem colonStep_of_not_used (page : Nat) (lines : List OcrLine)
    (st : List Pair × List Nat) (i : Nat) (hi : st.2.contains i = false) :
    colonStep page lines st i =
      if colonSplittable (lines.getD i default).text then
        (st.1 ++ [mkColonPair page (lines.getD i default)], st.2 ++ [i])
      else st := by
  unfold colonStep
  rw [hi]
  simp

theorem colonPass_go (page : Nat) (lines : List OcrLine) :
    ∀ (is : List Nat) (st : List Pair × List Nat),
      (∀ i ∈ is, ¬ i ∈ st.2) → is.Nodup →
      is.foldl (colonStep page lines) st =
        (st.1 ++ is.filterMap (fun i =>
            if colonSplittable (lines.getD i default).text then
              some (mkColonPair page (lines.getD i default))
            else none),
         st.2 ++ is.filter (fun i => colonSplittable (lines.getD i default).text)) := by
  intro is
  induction is with
  | nil => intro st h hnd; simp
  | cons i rest ih =>
    intro st h hnd
    have hi : st.2.contains i = false := by
      have := h i (List.mem_cons_self i rest)
      simpa [List.elem_iff] using this
    rw [List.foldl_cons, colonStep_of_not_used page lines st i hi]
    cases hsplit : colonSplittable (lines.getD i default).text with
    | true =>
      rw [if_pos rfl]
      rw [ih (st.1 ++ [mkColonPair page (lines.getD i default)], st.2 ++ [i])]
      · simp only [List.filterMap_cons, List.filter_cons]
        rw [hsplit]
        simp [List.append_assoc]
      · intro j hj
        simp only [List.mem_append, List.mem_singleton]
        rintro (hj2 | rfl)
        · exact h j (List.mem_cons_of_mem i hj) hj2
        · exact (List.nodup_cons.1 hnd).1 hj
      · exact (List.nodup_cons.1 hnd).2
    | false =>
      rw [if_neg (by simp)]
      rw [ih st (fun j hj => h j (List.mem_cons_of_mem i hj)) (List.nodup_cons.1 hnd).2]
      simp only [List.filterMap_cons, List.filter_cons]
      rw [hsplit]
      simp

theorem colonPass_eq (page : Nat) (lines : List OcrLine) :
    colonPass page lines =
      ((List.range lines.length).filterMap (fun i =>
          if colonSplittable (lines.getD i default).text then
            some (mkColonPair page (lines.getD i default))
          else none),
       (List.range lines.length).filter (fun i =>
          colonSplittable (lines.getD i default).text)) := by
  unfold colonPass
  rw [colonPass_go page lines (List.range lines.length) ([], [])
    (by intro i _ hmem; simp at hmem) (List.nodup_range lines.length)]
  simp

theorem mkColonPair_nonempty (page : Nat) (l : OcrLine)
    (h : colonSplittable l.text = true) :
    (mkColonPair page l).label ≠ "" ∧ (mkColonPair page l).value ≠ "" := by
  unfold colonSplittable at h
  unfold mkColonPair
  cases hs : splitAtFirst ':' l.text.trim with
  | none => rw [hs] at h; simp at h
  | some ab =>
    obtain ⟨a, b⟩ := ab
    rw [hs] at h
    simp only [Bool.and_eq_true, bne_iff_ne, ne_eq] at h
    exact ⟨h.1, h.2⟩

/-- C9 (amended): every pair emitted by the colon pass has non-empty label and
value after trimming. (The geometric pass does not enforce this; see
`c9_counterexample`.) -/
theorem c9_colon_pairs_nonempty (page : Nat) (lines : List OcrLine) (q : Pair)
    (hq : q ∈ (colonPass page lines).1) : q.label ≠ "" ∧ q.value ≠ "" := by
  rw [colonPass_eq] at hq
  obtain ⟨i, _, hqi⟩ := List.mem_filterMap.1 hq
  by_cases hsp : colonSplittable (lines.getD i default).text = true
  · rw [if_pos hsp] at hqi
    cases hqi
    exact mkColonPair_nonempty page _ hsp
  · rw [if_neg hsp] at hqi
    cases hqi

/-- Witness for C9 (amended): the colon pair of a concrete one-line page. -/
theorem c9_colon_pairs_nonempty_witness :
    (⟨"A", "B", 1, some 1, some [⟨1, 1⟩]⟩ : Pair).label ≠ "" ∧
      (⟨"A", "B", 1, some 1, some [⟨1, 1⟩]⟩ : Pair).value ≠ "" :=
  c9_colon_pairs_nonempty 1 [⟨"line", "A: B", 1, some [⟨1, 1⟩], some (some 1)⟩]
    ⟨"A", "B", 1, some 1, some [⟨1, 1⟩]⟩ (by with_unfolding_all decide)

/-! ## The geometric pass only consumes lines the colon pass left unused -/

theorem bestAligned_mem (lines : List OcrLine) (used : List Nat) (line : OcrLine) (cx : ℚ)
    (b : OcrLine) (h : bestAligned lines used line cx = some b) :
    ∃ j, j < lines.length ∧ used.contains j = false ∧ b = lines.getD j default := by
  have hinv : ∀ (is : List Nat), (∀ j ∈ is, j < lines.length) →
      ∀ (acc : Option (OcrLine × ℚ)),
        (∀ q : OcrLine × ℚ, acc = some q →
          ∃ j, j < lines.length ∧ used.contains j = false ∧ q.1 = lines.getD j default) →
        ∀ q : OcrLine × ℚ, is.foldl (bestStep lines used line cx) acc = some q →
          ∃ j, j < lines.length ∧ used.contains j = false ∧ q.1 = lines.getD j default := by
    intro is
    induction is with
    | nil => intro _ acc hacc q hq; exact hacc q hq
    | cons j rest ih =>
      intro hjs acc hacc q hq
      rw [List.foldl_cons] at hq
      refine ih (fun k hk => hjs k (List.mem_cons_of_mem j hk))
        (bestStep lines used line cx acc j) ?_ q hq
      intro q2 hq2
      unfold bestStep at hq2
      by_cases hu : used.contains j = true
      · rw [if_pos hu] at hq2
        exact hacc q2 hq2
      · rw [if_neg hu] at hq2
        split at hq2
        · cases hq2
          exact ⟨j, hjs j (List.mem_cons_self j rest), by simpa using hu, rfl⟩
        · exact hacc q2 hq2
  unfold bestAligned at h
  obtain ⟨q, hq, hq1⟩ := Option.map_eq_some'.1 h
  obtain ⟨j, h1, h2, h3⟩ := hinv (List.range lines.length)
    (fun j hj => List.mem_range.1 hj) none (fun q hq0 => by cases hq0) q hq
  exact ⟨j, h1, h2, hq1 ▸ h3⟩

theorem fallbackFind_mem (lines : List OcrLine) (used : List Nat) (i : Nat)
    (cy y_thresh x_split : ℚ) (j : Nat)
    (h : fallbackFind lines used i cy y_thresh x_split = some j) :
    j < lines.length ∧ used.contains j = false := by
  unfold fallbackFind at h
  have hp := List.find?_some h
  have hmem := List.mem_of_find?_eq_some h
  have hlen : j < lines.length := by
    have := (List.mem_filter.1 hmem).2
    simpa using this
  refine ⟨hlen, ?_⟩
  simp only [Bool.and_eq_true, Bool.not_eq_true'] at hp
  exact hp.1

theorem geoStep_shape (y_thresh x_split : ℚ) (page : Nat) (lines : List OcrLine)
    (st res : List Pair × List Nat) (i : Nat)
    (hi : i < lines.length)
    (hsub : ∀ k, k < lines.length → colonSplittable (lines.getD k default).text = true →
      st.2.contains k = true)
    (hok : geoStep y_thresh x_split page lines st i = .ok res) :
    ∃ extra more, res.1 = st.1 ++ extra ∧ res.2 = st.2 ++ more ∧
      ∀ q ∈ extra,
        strippedSplittable q.label = false ∧ strippedSplittable q.value = false := by
  have hnosplit : ∀ k, k < lines.length → st.2.contains k = false →
      colonSplittable (lines.getD k default).text = false := by
    intro k hk hc
    cases hcs : colonSplittable (lines.getD k default).text with
    | false => rfl
    | true => rw [hsub k hk hcs] at hc; cases hc
  unfold geoStep at hok
  by_cases hu : st.2.contains i = true
  · rw [if_pos hu] at hok
    obtain rfl := Except.ok.inj hok
    exact ⟨[], [], by simp, by simp, fun q hq => absurd hq (List.not_mem_nil q)⟩
  · rw [if_neg hu] at hok
    have hufalse : st.2.contains i = false := Bool.not_eq_true _ ▸ hu
    have hlabel : strippedSplittable (lines.getD i default).text.trim = false := by
      rw [colonSplittable_eq_stripped]
      exact hnosplit i hi hufalse
    split at hok
    · split at hok
      · rename_i b hb
        split at hok
        · rename_i c hc
          obtain rfl := Except.ok.inj hok
          obtain ⟨j, hj1, hj2, rfl⟩ := bestAligned_mem lines st.2 (lines.getD i default)
            (get_center_x (lines.getD i default).bounding_box) b hb
          refine ⟨[⟨(lines.getD i default).text.trim, (lines.getD j default).text.trim,
            page, some c, (lines.getD j default).bounding_box⟩], [i, idxOfFirst lines
            (lines.getD j default)], rfl, rfl, ?_⟩
          intro q hq
          rw [List.mem_singleton] at hq
          subst hq
          refine ⟨hlabel, ?_⟩
          rw [colonSplittable_eq_stripped]
          exact hnosplit j hj1 hj2
        · cases hok
      · rename_i hnone
        split at hok
        · rename_i j hj
          split at hok
          · rename_i c hc
            obtain rfl := Except.ok.inj hok
            obtain ⟨hj1, hj2⟩ := fallbackFind_mem lines st.2 i
              (get_center_y (lines.getD i default).bounding_box) y_thresh x_split j hj
            refine ⟨[⟨(lines.getD i default).text.trim, (lines.getD j default).text.trim,
              page, some c, (lines.getD j default).bounding_box⟩], [i, j], rfl, rfl, ?_⟩
            intro q hq
            rw [List.mem_singleton] at hq
            subst hq
            refine ⟨hlabel, ?_⟩
            rw [colonSplittable_eq_stripped]
            exact hnosplit j hj1 hj2
          · cases hok
        · obtain rfl := Except.ok.inj hok
          exact ⟨[], [], by simp, by simp, fun q hq => absurd hq (List.not_mem_nil q)⟩
    · obtain rfl := Except.ok.inj hok
      exact ⟨[], [], by simp, by simp, fun q hq => absurd hq (List.not_mem_nil q)⟩

theorem contains_append_left {l1 l2 : List Nat} {k : Nat} (h : l1.contains k = true) :
    (l1 ++ l2).contains k = true := by
  rw [List.elem_iff] at h ⊢
  exact List.mem_append_left l2 h

theorem geoPass_shape (y_thresh x_split : ℚ) (page : Nat) (lines : List OcrLine) :
    ∀ (is : List Nat) (st res : List Pair × List Nat),
      (∀ i ∈ is, i < lines.length) →
      (∀ k, k < lines.length → colonSplittable (lines.getD k default).text = true →
        st.2.contains k = true) →
      is.foldlM (geoStep y_thresh x_split page lines) st = .ok res →
      ∃ extra, res.1 = st.1 ++ extra ∧
        ∀ q ∈ extra,
          strippedSplittable q.label = false ∧ strippedSplittable q.value = false := by
  intro is
  induction is with
  | nil =>
    intro st res _ _ hok
    obtain rfl := Except.ok.inj hok
    exact ⟨[], by simp, fun q hq => absurd hq (List.not_mem_nil q)⟩
  | cons i rest ih =>
    intro st res his hsub hok
    rw [List.foldlM_cons] at hok
    cases hstep : geoStep y_thresh x_split page lines st i with
    | error e => rw [hstep] at hok; simp [bind, Except.bind] at hok
    | ok st1 =>
      rw [hstep] at hok
      simp only [bind, Except.bind] at hok
      obtain ⟨e1, m1, he1, hm1, hgood1⟩ := geoStep_shape y_thresh x_split page lines st st1 i
        (his i (List.mem_cons_self i rest)) hsub hstep
      obtain ⟨e2, he2, hgood2⟩ := ih st1 res (fun k hk => his k (List.mem_cons_of_mem i hk))
        (by
          intro k hk hcs
          rw [hm1]
          exact contains_append_left (hsub k hk hcs))
        hok
      refine ⟨e1 ++ e2, ?_, ?_⟩
      · rw [he2, he1, List.append_assoc]
      · intro q hq
        rcases List.mem_append.1 hq with h1 | h2
        · exact hgood1 q h1
        · exact hgood2 q h2

/-- C4: within a page, the colon pass runs fully before the geometric pass and
marks each colon line used; a line whose stripped text splits at its first
colon into two non-empty trimmed halves always contributes its colon pair to
the page results, and every pair the geometric pass appends afterwards has a
label and value that are not colon-splittable, i.e. the colon lines are never
additionally consumed as geometric labels or values. -/
theorem c4_colon_pass_precedes (y_thresh x_split : ℚ) (page : Nat) (lines : List OcrLine)
    (i : Nat) (res : List Pair) (used : List Nat)
    (hi : i < lines.length)
    (hs : colonSplittable (lines.getD i default).text = true)
    (hok : processPage y_thresh x_split page lines = .ok (res, used)) :
    mkColonPair page (lines.getD i default) ∈ res ∧
    ∀ q ∈ res.drop (colonPass page lines).1.length,
      strippedSplittable q.label = false ∧ strippedSplittable q.value = false := by
  unfold processPage geoPass at hok
  obtain ⟨extra, hres, hgood⟩ := geoPass_shape y_thresh x_split page lines
    (List.range lines.length) (colonPass page lines) (res, used)
    (fun k hk => List.mem_range.1 hk)
    (by
      intro k hk hcs
      rw [colonPass_eq]
      rw [List.elem_iff]
      exact List.mem_filter.2 ⟨List.mem_range.2 hk, hcs⟩)
    hok
  have hres2 : res = (colonPass page lines).1 ++ extra := hres
  constructor
  · rw [hres2]
    apply List.mem_append_left
    rw [colonPass_eq]
    exact List.mem_filterMap.2 ⟨i, List.mem_range.2 hi, by rw [if_pos hs]⟩
  · intro q hq
    rw [hres2] at hq
    rw [List.drop_left] at hq
    exact hgood q hq

/-- Witness for C4: a one-page buffer with a colon line and an unrelated value
line; the colon pair is produced and the geometric remainder is empty. -/
theorem c4_colon_pass_precedes_witness :
    mkColonPair 1 ([(⟨"line", "A: B", 1, some [⟨1, 1⟩], some (some 1)⟩ : OcrLine),
        ⟨"line", "V", 1, some [⟨3, 1⟩], some (some 1)⟩].getD 0 default) ∈
      [(⟨"A", "B", 1, some 1, some [⟨1, 1⟩]⟩ : Pair)] ∧
    ∀ q ∈ ([(⟨"A", "B", 1, some 1, some [⟨1, 1⟩]⟩ : Pair)].drop
        (colonPass 1 [⟨"line", "A: B", 1, some [⟨1, 1⟩], some (some 1)⟩,
          ⟨"line", "V", 1, some [⟨3, 1⟩], some (some 1)⟩]).1.length),
      strippedSplittable q.label = false ∧ strippedSplittable q.value = false :=
  c4_colon_pass_precedes (0.2 : ℚ) (2.5 : ℚ) 1
    [⟨"line", "A: B", 1, some [⟨1, 1⟩], some (some 1)⟩,
     ⟨"line", "V", 1, some [⟨3, 1⟩], some (some 1)⟩]
    0
    [⟨"A", "B", 1, some 1, some [⟨1, 1⟩]⟩]
    [0]
    (by decide)
    (by with_unfolding_all decide)
    (by with_unfolding_all rfl)

/-! ## Reconciliation theorems -/

/-- C5: on an empty normalized-item list, `extract_fields_with_llm` returns
empty extracted fields, the full `expected_fields` list as missing, and empty
validation results, for every generation function (in particular one that
always fails, so the capability is never invoked). -/
theorem c5_empty_items_short_circuit (doc_config : DocumentTypeConfig)
    (generate : String → Except String String)
    (original_ocr_lines : Option (List OcrLine)) (reMatch : String → String → Bool) :
    extract_fields_with_llm [] doc_config generate original_ocr_lines reMatch =
      .ok ⟨[], .list (doc_config.expected_fields.map .str), []⟩ := rfl

/-- C6 counterexample: on a response with prose before the JSON object, the
implemented parser fails outright while the specified
direct-parse-then-balanced-block strategy succeeds; the implementation has no
balanced-block fallback. -/
theorem c6_counterexample :
    extract_json_from_response "json follows \x7b\"a\": 1\x7d" =
        .error "Invalid JSON in response" ∧
      extract_json_spec "json follows \x7b\"a\": 1\x7d" =
        .ok (.dict [("a", .int 1)]) :=
  ⟨by with_unfolding_all rfl, by with_unfolding_all rfl⟩

/-- C6 (amended): the parser strips the first code fence when present and cuts
every line at `//` before a single `json.loads`; in particular, for a response
with no fence and no `//` on any line it is exactly one direct parse of the
raw response, and a parse failure raises the decoding error. -/
theorem c6_single_parse_after_stripping (response : String)
    (hf : pyIn "```" response = false)
    (hc : ∀ line ∈ response.data.splitOn '\n', pyFindAux "//".data 0 line 0 = none) :
    extract_json_from_response response =
      match jsonLoads response with
      | some v => .ok v
      | none => .error "Invalid JSON in response" := by
  unfold extract_json_from_response stripFence
  rw [hf]
  simp only [Bool.false_eq_true, if_false]
  have hdec : decomment response.data = response.data := by
    unfold decomment
    have hmap : (response.data.splitOn '\n').map cutComment = response.data.splitOn '\n' := by
      calc (response.data.splitOn '\n').map cutComment
          = (response.data.splitOn '\n').map id :=
            List.map_congr_left (fun line hline => by
              unfold cutComment
              rw [hc line hline]
              rfl)
        _ = response.data.splitOn '\n' := List.map_id _
    rw [hmap]
    exact List.intercalate_splitOn response.data '\n'
  rw [hdec]
  rfl

/-- Witness for C6 (amended) at a concrete fence-free, comment-free response. -/
theorem c6_single_parse_after_stripping_witness :
    extract_json_from_response "\x7b\"a\": 1\x7d" =
      match jsonLoads "\x7b\"a\": 1\x7d" with
      | some v => .ok v
      | none => .error "Invalid JSON in response" :=
  c6_single_parse_after_stripping "\x7b\"a\": 1\x7d" (by with_unfolding_all rfl)
    (by with_unfolding_all decide)

/-- C7 counterexample: the model returns a field with an invalid `source` tag,
yet the reconciled field dict carries no `source` entry at all (rather than one
forced to `TextLine`). -/
theorem c7_counterexample :
    extract_fields_with_llm [⟨"text_line", "", "", "x", 1, none, none⟩]
        ⟨"credit_request", ["amount"], [], [], []⟩
        (fun _ =>
          .ok "\x7b\"extracted_fields\": \x7b\"f\": \x7b\"value\": null, \"source\": \"Bogus\"\x7d\x7d\x7d")
        none (fun _ _ => false) =
      .ok ⟨[("f", .dict [("value", .null), ("confidence", .num (1 / 2))])], .list [], []⟩ ∧
    pyLookup [("value", PyVal.null), ("confidence", PyVal.num (1 / 2))] "source" = none :=
  ⟨by with_unfolding_all rfl, by with_unfolding_all rfl⟩

theorem processField_shape (ocr_lines : List Item)
    (original_ocr_lines : Option (List OcrLine)) (field_mappings : List (String × String))
    (field_name : String) (field_data : PyVal) :
    fieldDictShapeOk
      (processField ocr_lines original_ocr_lines field_mappings field_name field_data) := by
  unfold processField
  split
  · exact ⟨by with_unfolding_all rfl, by with_unfolding_all rfl, by with_unfolding_all rfl⟩
  · split
    · exact ⟨by with_unfolding_all rfl, by with_unfolding_all rfl, by with_unfolding_all rfl⟩
    · split
      · exact ⟨by with_unfolding_all rfl, by with_unfolding_all rfl, by with_unfolding_all rfl⟩
      · exact ⟨by with_unfolding_all rfl, by with_unfolding_all rfl, by with_unfolding_all rfl⟩

theorem pyInsert_mem : ∀ (kvs : List (String × PyVal)) (k : String) (v : PyVal)
    (kv : String × PyVal), kv ∈ pyInsert kvs k v → kv.2 = v ∨ kv ∈ kvs := by
  intro kvs k v
  induction kvs with
  | nil =>
    intro kv h
    unfold pyInsert at h
    rw [List.mem_singleton] at h
    left
    rw [h]
  | cons a rest ih =>
    intro kv h
    obtain ⟨a1, a2⟩ := a
    unfold pyInsert at h
    split at h
    · rcases List.mem_cons.1 h with h1 | h1
      · left; rw [h1]
      · right; exact List.mem_cons_of_mem _ h1
    · rcases List.mem_cons.1 h with h1 | h1
      · right; rw [h1]; exact List.mem_cons_self _ _
      · rcases ih kv h1 with h2 | h2
        · left; exact h2
        · right; exact List.mem_cons_of_mem _ h2

theorem foldl_pyInsert_values {α : Type} (key : α → String) (val : α → PyVal) :
    ∀ (l : List α) (acc : List (String × PyVal)) (kv : String × PyVal),
      kv ∈ l.foldl (fun acc a => pyInsert acc (key a) (val a)) acc →
      (∃ a ∈ l, kv.2 = val a) ∨ kv ∈ acc := by
  intro l
  induction l with
  | nil =>
    intro acc kv h
    right
    exact h
  | cons a rest ih =>
    intro acc kv h
    rw [List.foldl_cons] at h
    rcases ih _ kv h with h1 | h1
    · obtain ⟨b, hb, hv⟩ := h1
      exact Or.inl ⟨b, List.mem_cons_of_mem a hb, hv⟩
    · rcases pyInsert_mem acc (key a) (val a) kv h1 with h2 | h2
      · exact Or.inl ⟨a, List.mem_cons_self a rest, h2⟩
      · exact Or.inr h2

theorem reconcile_fields_cases (ocr_lines : List Item) (doc_config : DocumentTypeConfig)
    (generate : String → Except String String)
    (original_ocr_lines : Option (List OcrLine)) (reMatch : String → String → Bool)
    (res : ReconcileResult)
    (hok : extract_fields_with_llm ocr_lines doc_config generate original_ocr_lines reMatch =
      .ok res) :
    res.extracted_fields = [] ∨
    ∃ ef, res.extracted_fields =
      mappedOf doc_config.field_mappings
        (extractedOf ocr_lines original_ocr_lines doc_config.field_mappings ef) := by
  unfold extract_fields_with_llm at hok
  split at hok
  · obtain rfl := Except.ok.inj hok
    left
    rfl
  · split at hok
    · exact Except.noConfusion hok
    · split at hok
      · exact Except.noConfusion hok
      · split at hok
        · split at hok
          · split at hok
            · obtain rfl := Except.ok.inj hok
              right
              exact ⟨_, rfl⟩
            · exact Except.noConfusion hok
          · exact Except.noConfusion hok
        · exact Except.noConfusion hok

/-- C7 (amended): the per-field processing coerces non-dict model values into
`{"value": raw}` and defaults a missing `value` to `None`, and every field
dict of a successful run has `value` and `confidence` entries but no `source`
tag at all (the implementation never reads or writes a source tag). -/
theorem c7_no_source_tag (ocr_lines : List Item) (doc_config : DocumentTypeConfig)
    (generate : String → Except String String)
    (original_ocr_lines : Option (List OcrLine)) (reMatch : String → String → Bool)
    (res : ReconcileResult)
    (hok : extract_fields_with_llm ocr_lines doc_config generate original_ocr_lines reMatch =
      .ok res) :
    ∀ nd ∈ res.extracted_fields, fieldDictShapeOk nd.2 := by
  intro nd hnd
  rcases reconcile_fields_cases ocr_lines doc_config generate original_ocr_lines reMatch res
    hok with h | ⟨ef, hef⟩
  · rw [h] at hnd
    exact absurd hnd (List.not_mem_nil nd)
  · rw [hef] at hnd
    unfold mappedOf at hnd
    rcases foldl_pyInsert_values (fun nd0 => mappedKey doc_config.field_mappings nd0.1)
      Prod.snd _ [] nd hnd with ⟨b, hb, hv⟩ | hmem
    · unfold extractedOf at hb
      rcases foldl_pyInsert_values Prod.fst
        (fun nf => processField ocr_lines original_ocr_lines doc_config.field_mappings
          nf.1 nf.2) ef [] b hb with ⟨c, _, hc⟩ | hbmem
      · rw [hv, hc]
        exact processField_shape ocr_lines original_ocr_lines doc_config.field_mappings c.1 c.2
      · exact absurd hbmem (List.not_mem_nil b)
    · exact absurd hmem (List.not_mem_nil nd)

/-- Witness for C7 (amended) at the concrete run of `c7_counterexample`. -/
theorem c7_no_source_tag_witness :
    fieldDictShapeOk (PyVal.dict [("value", PyVal.null), ("confidence", PyVal.num (1 / 2))]) :=
  c7_no_source_tag [⟨"text_line", "", "", "x", 1, none, none⟩]
    ⟨"credit_request", ["amount"], [], [], []⟩
    (fun _ =>
      .ok "\x7b\"extracted_fields\": \x7b\"f\": \x7b\"value\": null, \"source\": \"Bogus\"\x7d\x7d\x7d")
    none (fun _ _ => false)
    ⟨[("f", .dict [("value", .null), ("confidence", .num (1 / 2))])], .list [], []⟩
    (by with_unfolding_all rfl)
    ("f", .dict [("value", .null), ("confidence", .num (1 / 2))])
    (by simp)

/-- C1 counterexample: the model value `"000"` is not textually equal to any
item label or value, yet re-grounding matches the pair (by lowercase substring
containment in `"100.000 €"`) and copies its value, confidence, bounding box
and page; matching is containment-based, not exact equality. -/
theorem c1_counterexample :
    extract_fields_with_llm
        [⟨"label_value", "Kreditbetrag", "100.000 €", "", 1, some (9 / 10), some [⟨1, 1⟩]⟩]
        ⟨"credit_request", ["amount"], [], [], []⟩
        (fun _ => .ok "\x7b\"extracted_fields\": \x7b\"amount\": \x7b\"value\": \"000\"\x7d\x7d\x7d")
        none (fun _ _ => false) =
      .ok ⟨[("amount", .dict [("value", .str "100.000 €"), ("confidence", .num (9 / 10)),
          ("bounding_box", .list [.dict [("x", .num 1), ("y", .num 1)]]),
          ("page", .int 1)])],
        .list [], []⟩ ∧
    ("100.000 €" : String) ≠ "000" ∧ ("Kreditbetrag" : String) ≠ "000" :=
  ⟨by with_unfolding_all rfl, by decide, by decide⟩

/-- C1 (amended): for a field with a non-null value, re-grounding scans the
normalized `label_value` items first and then, on no match, the `"line"`-kind
original tokens, matching by lowercase substring containment of the value
string (or of a configured source-language label); on a match the field dict
is exactly the matched item's value, confidence, bounding box and page. -/
theorem c1_regrounding_copies_matched_item (ocr_lines : List Item)
    (original_ocr_lines : Option (List OcrLine)) (field_mappings : List (String × String))
    (field_name : String) (field_data : PyVal)
    (hv : fieldValueOf field_data ≠ PyVal.null) :
    (∀ mp, findMatchingPair ocr_lines (germanLabelsOf field_mappings field_name)
        ((pyToStr (fieldValueOf field_data)).toLower) = some mp →
      processField ocr_lines original_ocr_lines field_mappings field_name field_data =
        .dict [("value", .str mp.value), ("confidence", pyOfOptQ mp.confidence),
          ("bounding_box", pyOfBBox mp.bounding_box), ("page", .int mp.page)]) ∧
    (findMatchingPair ocr_lines (germanLabelsOf field_mappings field_name)
        ((pyToStr (fieldValueOf field_data)).toLower) = none →
      ∀ ml, findMatchingLine original_ocr_lines (germanLabelsOf field_mappings field_name)
          ((pyToStr (fieldValueOf field_data)).toLower) = some ml →
      processField ocr_lines original_ocr_lines field_mappings field_name field_data =
        .dict [("value", .str ml.text), ("confidence", lineConfVal ml),
          ("bounding_box", pyOfBBox ml.bounding_box), ("page", .int ml.page)]) := by
  constructor
  · intro mp hmp
    unfold processField
    cases hfv : fieldValueOf field_data <;>
      first
        | exact absurd hfv hv
        | (rw [hfv] at hmp; simp [hmp])
  · intro hnone ml hml
    unfold processField
    cases hfv : fieldValueOf field_data <;>
      first
        | exact absurd hfv hv
        | (rw [hfv] at hnone hml; simp [hnone, hml])

/-- Witness for C1 (amended) at a concrete item list and field value. -/
theorem c1_regrounding_copies_matched_item_witness :
    processField
        [⟨"label_value", "Kreditbetrag", "100.000 €", "", 1, some (9 / 10), some [⟨1, 1⟩]⟩]
        none [] "amount" (.dict [("value", .str "000")]) =
      .dict [("value", .str "100.000 €"), ("confidence", .num (9 / 10)),
        ("bounding_box", .list [.dict [("x", .num 1), ("y", .num 1)]]), ("page", .int 1)] :=
  (c1_regrounding_copies_matched_item
      [⟨"label_value", "Kreditbetrag", "100.000 €", "", 1, some (9 / 10), some [⟨1, 1⟩]⟩]
      none [] "amount" (.dict [("value", .str "000")])
      (by
        intro h
        rw [show fieldValueOf (PyVal.dict [("value", PyVal.str "000")]) = PyVal.str "000"
          from by with_unfolding_all rfl] at h
        exact PyVal.noConfusion h)).1
    ⟨"label_value", "Kreditbetrag", "100.000 €", "", 1, some (9 / 10), some [⟨1, 1⟩]⟩
    (by with_unfolding_all rfl)

end CreditOcr
